import Mathlib

/-!
# Album server (`main.go`): a shallow embedding and its contract

The Go program is a Gin HTTP server over a GORM/SQLite store with two tables
(`Album`, `Photo`) and a local upload directory.  The embedding has three parts:

* the library functions the handlers call (`strconv.Atoi`, `fmt.Sprintf("%d")`,
  `filepath.Base`, the GORM calls `First`, `Create`, `Save`, `Delete`, `Find`),
  modelled as pure functions with the behaviour their documentation gives;
* the handlers of `main.go`, one definition per Go function, as state
  transformers returning the HTTP response together with the new state;
* the start-up code (`initDB`, `restoreUploads`) over a file system that maps
  absolute paths to file contents, with the database engine (`gorm.Open` and
  `AutoMigrate` on the database file) as a parameter.

Conventions: Go `int` is the 64-bit signed integer (`Int` with explicit bounds),
Go `uint` is the 64-bit unsigned integer (`Nat`, conversions reduce modulo `2^64`),
the path separator is `/` (the program runs on a Unix system), a file content is a
list of byte values.
-/

namespace AlbumServer

/-! ## Data model (`main.go`, lines 20-30) -/

/-- Go struct `Album`: `ID uint` (primary key) and `Title string`. -/
structure Album where
  ID : Nat
  Title : String
deriving DecidableEq, Repr

/-- Go struct `Photo`: `ID uint` (primary key), `AlbumID uint`, `Title`, `URL`. -/
structure Photo where
  ID : Nat
  AlbumID : Nat
  Title : String
  URL : String
deriving DecidableEq, Repr

/-- File contents: a sequence of byte values. -/
abbrev Bytes := List Nat

/-! ## `strconv.Atoi`, `%d` and `filepath.Base` -/

/-- Largest value of Go `uint64`. -/
def maxUint64 : Nat := 18446744073709551615

/-- Largest value of Go `int` on a 64-bit platform. -/
def maxInt64 : Int := 9223372036854775807

/-- Smallest value of Go `int` on a 64-bit platform. -/
def minInt64 : Int := -9223372036854775808

/-- Outcome of `strconv.ParseUint`: a value, a syntax error or a range error. -/
inductive NumResult where
  | ok (n : Nat)
  | syntaxError
  | rangeError
deriving DecidableEq, Repr

/-- Value of a decimal digit character, `none` for every other character. -/
def digitOf (c : Char) : Option Nat :=
  if 48 ≤ c.toNat ∧ c.toNat ≤ 57 then some (c.toNat - 48) else none

/-- The digit loop of `strconv.ParseUint(s, 10, 64)`: characters are consumed left
to right; a non-digit is a syntax error, an overflow of `uint64` a range error
(reported as soon as it happens, before later characters are looked at). -/
def parseUintLoop : List Char → Nat → NumResult
  | [], n => NumResult.ok n
  | c :: cs, n =>
    match digitOf c with
    | none => NumResult.syntaxError
    | some d =>
      if 1844674407370955162 ≤ n then NumResult.rangeError
      else if maxUint64 < n * 10 + d then NumResult.rangeError
      else parseUintLoop cs (n * 10 + d)

/-- Model of `strconv.ParseUint(s, 10, 64)`: the empty string is a syntax error. -/
def parseUint (s : List Char) : NumResult :=
  if s = [] then NumResult.syntaxError else parseUintLoop s 0

/-- Model of `strconv.ParseInt(s, 10, 0)`: the value and whether an error is
reported.  A syntax error gives `0`; a range error gives the bound of `int64`
with the sign of the input. -/
def parseInt (s : List Char) : Int × Bool :=
  match s with
  | [] => (0, true)
  | c :: cs =>
    let neg : Bool := c = '-'
    let digits : List Char := if c = '+' ∨ c = '-' then cs else c :: cs
    match parseUint digits with
    | NumResult.syntaxError => (0, true)
    | NumResult.rangeError => if neg then (minInt64, true) else (maxInt64, true)
    | NumResult.ok un =>
      if neg = false ∧ 9223372036854775808 ≤ un then (maxInt64, true)
      else if neg = true ∧ 9223372036854775808 < un then (minInt64, true)
      else if neg then (-(un : Int), false)
      else ((un : Int), false)

/-- Model of `strconv.Atoi`: value and error flag.  (Go takes a fast path for
inputs shorter than 19 bytes; it computes the same result as `ParseInt`.) -/
def atoi (s : String) : Int × Bool := parseInt s.data

/-- Decimal digits of a natural number, most significant first. -/
def decimal (n : Nat) : String := String.mk (Nat.toDigits 10 n)

/-- The verb `%d` of `fmt.Sprintf` applied to a Go `int`. -/
def formatInt (i : Int) : String :=
  if i < 0 then "-" ++ decimal (-i).toNat else decimal i.toNat

/-- Go conversion `uint(i)` of an `int`: reduction modulo `2^64`. -/
def toUint (i : Int) : Nat := (i % 18446744073709551616).toNat

/-- Removes the trailing separators of a path (first loop of `filepath.Base`). -/
def stripTrailingSeparators (p : List Char) : List Char :=
  (p.reverse.dropWhile (fun c => c = '/')).reverse

/-- The part of a path after its last separator (second loop of `filepath.Base`). -/
def lastElement (p : List Char) : List Char :=
  (p.reverse.takeWhile (fun c => c ≠ '/')).reverse

/-- Model of `filepath.Base` on Unix: `""` gives `"."`, trailing separators are
dropped, the last element is kept, and a path of separators only gives `"/"`. -/
def base (path : String) : String :=
  if path.data = [] then "."
  else
    let p := lastElement (stripTrailingSeparators path.data)
    if p = [] then "/" else String.mk p

/-! ## The persistence layer (GORM over SQLite)

The tables hold the records as the Go program reads them, in key order.  SQLite
keeps an integer column as a signed 64-bit value: a `uint` up to `maxRowid` is stored
as itself, a larger one as a negative integer, which cannot be read back into a
`uint` field.  New keys are assigned as by `AUTOINCREMENT` (spec, section 3: ids are
never reused): one more than the largest row id the table has ever held, and an
insert fails once `maxRowid` has been used. -/

/-- Largest row id of an SQLite table, `2^63 - 1`. -/
def maxRowid : Nat := 9223372036854775807

/-- The database: both tables and the row-id sequence SQLite keeps for each. -/
structure Store where
  albums : List Album
  photos : List Photo
  albumSeq : Nat
  photoSeq : Nat
deriving DecidableEq, Repr

/-- Largest non-negative row id among the keys of a table (`0` when there is none). -/
def largestRowid (ids : List Nat) : Nat :=
  (ids.filter (fun i => i ≤ maxRowid)).foldl max 0

/-- The key an insert without explicit key receives, `none` when the row ids of
the table are exhausted (`SQLITE_FULL`). -/
def nextRowid (seq : Nat) (ids : List Nat) : Option Nat :=
  if max seq (largestRowid ids) < maxRowid then some (max seq (largestRowid ids) + 1)
  else none

/-- Puts an album into a table kept in key order: before the first row with a
larger key. -/
def insertAlbum (a : Album) : List Album → List Album
  | [] => [a]
  | b :: bs => if a.ID < b.ID then a :: b :: bs else b :: insertAlbum a bs

/-- Puts a photo into a table kept in key order. -/
def insertPhoto (p : Photo) : List Photo → List Photo
  | [] => [p]
  | q :: qs => if p.ID < q.ID then p :: q :: qs else q :: insertPhoto p qs

/-- GORM `db.First(&album, albumID)`: the album whose key equals the integer
`albumID` (compared as 64-bit values), `none` for `ErrRecordNotFound`. -/
def firstAlbum (s : Store) (albumID : Int) : Option Album :=
  s.albums.find? (fun a => a.ID = toUint albumID)

/-- GORM `db.Create(&album)`, run in a transaction.  A zero key asks the database
for a new key (the largest row id so far plus one, so the row goes last).  A
non-zero key is inserted as given: the insert fails when the key is taken, and for a
key above `maxRowid` the key that comes back cannot be read into the `uint` field,
so the insert is rolled back and the key of the Go value is reset to zero.  The
callers do not look at the error.  Returns the new store and the Go value after
the call. -/
def createAlbumRow (s : Store) (a : Album) : Store × Album :=
  if a.ID = 0 then
    match nextRowid s.albumSeq (s.albums.map Album.ID) with
    | some id =>
      ({ s with albums := s.albums ++ [{ a with ID := id }], albumSeq := id },
        { a with ID := id })
    | none => (s, a)
  else if maxRowid < a.ID then (s, { a with ID := 0 })
  else if s.albums.any (fun b => b.ID = a.ID) then (s, a)
  else ({ s with albums := insertAlbum a s.albums, albumSeq := max s.albumSeq a.ID }, a)

/-- GORM `db.Create(&photo)`, as `createAlbumRow` on the photo table.  The column
`album_id` is written as a 64-bit value whatever the `uint` is. -/
def createPhotoRow (s : Store) (p : Photo) : Store × Photo :=
  if p.ID = 0 then
    match nextRowid s.photoSeq (s.photos.map Photo.ID) with
    | some id =>
      ({ s with photos := s.photos ++ [{ p with ID := id }], photoSeq := id },
        { p with ID := id })
    | none => (s, p)
  else if maxRowid < p.ID then (s, { p with ID := 0 })
  else if s.photos.any (fun q => q.ID = p.ID) then (s, p)
  else ({ s with photos := insertPhoto p s.photos, photoSeq := max s.photoSeq p.ID }, p)

/-- GORM `db.Where("album_id = ?", albumID).Delete(&Photo{})`. -/
def deletePhotosWhere (s : Store) (albumID : Int) : Store :=
  { s with photos := s.photos.filter (fun p => p.AlbumID ≠ toUint albumID) }

/-- GORM `db.Delete(&Album{}, albumID)`: the new store and `RowsAffected`. -/
def deleteAlbumRow (s : Store) (albumID : Int) : Store × Nat :=
  ({ s with albums := s.albums.filter (fun a => a.ID ≠ toUint albumID) },
    (s.albums.filter (fun a => a.ID = toUint albumID)).length)

/-- GORM `db.Where("album_id = ?", albumID).Find(&photos)`: the rows whose
`album_id` equals `albumID` as 64-bit values.  A row whose `album_id` is above
`maxRowid` is stored as a negative integer; scanning it into the `uint` field fails
and the row comes back as the zero record. -/
def findPhotosWhere (s : Store) (albumID : Int) : List Photo :=
  (s.photos.filter (fun p => p.AlbumID = toUint albumID)).map
    (fun p => if maxRowid < p.AlbumID then ⟨0, 0, "", ""⟩ else p)

/-! ## HTTP responses -/

/-- JSON body of a response: a record, a list of records, or a one-key object
`gin.H` with key `message` or key `error`. -/
inductive Payload where
  | album (a : Album)
  | albums (l : List Album)
  | photo (p : Photo)
  | photos (l : List Photo)
  | message (m : String)
  | error (m : String)
deriving DecidableEq, Repr

/-- Status code and JSON body written by `c.JSON`. -/
structure Response where
  status : Nat
  body : Payload
deriving DecidableEq, Repr

/-! ## Album handlers (`main.go`, lines 138-206) -/

/-- Handler `getAlbumByID` (lines 138-150). -/
def getAlbumByID (id : String) (s : Store) : Response :=
  let albumID := (atoi id).1
  match firstAlbum s albumID with
  | none => ⟨404, Payload.message "Album not found"⟩
  | some album => ⟨200, Payload.album album⟩

/-- Handler `deleteAlbum` (lines 176-189). -/
def deleteAlbum (id : String) (s : Store) : Response × Store :=
  let albumID := (atoi id).1
  let s1 := deletePhotosWhere s albumID
  let result := deleteAlbumRow s1 albumID
  if result.2 = 0 then (⟨404, Payload.message "Album not found"⟩, result.1)
  else (⟨200, Payload.message "Album deleted"⟩, result.1)

/-- Handler `getAlbums` (lines 191-195). -/
def getAlbums (s : Store) : Response :=
  ⟨200, Payload.albums s.albums⟩

/-- Handler `createAlbum` (lines 197-206).  `body` is the outcome of
`c.ShouldBindJSON(&newAlbum)`: the bound `Album` (both JSON fields `id` and
`title` are bound, an absent field is zero) or the error text. -/
def createAlbum (body : Except String Album) (s : Store) : Response × Store :=
  match body with
  | Except.error e => (⟨400, Payload.error e⟩, s)
  | Except.ok newAlbum =>
    let created := createAlbumRow s newAlbum
    (⟨201, Payload.album created.2⟩, created.1)

/-- Handler `getPhotosByAlbum` (lines 208-213). -/
def getPhotosByAlbum (id : String) (s : Store) : Response :=
  let albumID := (atoi id).1
  ⟨200, Payload.photos (findPhotosWhere s albumID)⟩

/-! ## File system, environment and start-up (`main.go`, lines 49-107) -/

/-- The file system: absolute path and content of every file. -/
structure FileSystem where
  files : List (String × Bytes)
deriving DecidableEq, Repr

/-- Content of the file at `path`; `none` is the case `os.IsNotExist` of `os.Stat`. -/
def FileSystem.read (fs : FileSystem) (path : String) : Option Bytes :=
  (fs.files.find? (fun e => e.1 = path)).map Prod.snd

/-- The file system after a successful `os.WriteFile` (create or truncate). -/
def FileSystem.write (fs : FileSystem) (path : String) (data : Bytes) : FileSystem :=
  ⟨(path, data) :: fs.files.filter (fun e => e.1 ≠ path)⟩

/-- What the process gets from its operating system: `os.TempDir()` (a clean
absolute path such as `/tmp`, so that `filepath.Join` is concatenation with the
separator), the working directory, and whether creating or truncating the file at
an absolute path succeeds. -/
structure Env where
  tempDir : String
  cwd : String
  canWrite : String → Bool

/-- Local `dbPath` of `initDB`: `filepath.Join(os.TempDir(), "album-server", "database.db")`. -/
def dbPath (env : Env) : String :=
  env.tempDir ++ "/album-server/database.db"

/-- Local `uploadsDir` of `restoreUploads`:
`filepath.Join(os.TempDir(), "album-server", "uploads")`. -/
def uploadsDir (env : Env) : String :=
  env.tempDir ++ "/album-server/uploads"

/-- Local `dstPath` of `restoreUploads`: `filepath.Join(uploadsDir, file.Name())`. -/
def dstPath (env : Env) (name : String) : String :=
  uploadsDir env ++ "/" ++ name

/-- The absolute path the operating system resolves a relative path to. -/
def absolute (env : Env) (rel : String) : String :=
  env.cwd ++ "/" ++ rel

/-- Lines 67-72 of `initDB`: `gorm.Open(sqlite.Open(dbPath))` and `db.AutoMigrate`
on the database file with content `content`.  `openDB` is the database engine:
`none` when the file cannot be opened as a database (`log.Fatal`, line 69),
otherwise the content of the file once `AutoMigrate` has created the tables that
were missing.  The file is written only when its content changes. -/
def openDatabase (env : Env) (openDB : Bytes → Option Bytes) (fs : FileSystem)
    (content : Bytes) : Option FileSystem :=
  match openDB content with
  | none => none
  | some migrated =>
    if migrated = content then some fs else some (fs.write (dbPath env) migrated)

/-- Function `initDB` (lines 49-73) on the file system: the embedded database is
written to `dbPath` when no file is there (lines 59-65), then the database file is
opened and migrated (lines 67-72); `none` is `log.Fatal`.  Directories are not part
of the file-system state; the tables the opened database holds are the `Store`. -/
def initDB (env : Env) (openDB : Bytes → Option Bytes) (embeddedDB : Bytes)
    (fs : FileSystem) : Option FileSystem :=
  match fs.read (dbPath env) with
  | none =>
    if env.canWrite (dbPath env) then
      openDatabase env openDB (fs.write (dbPath env) embeddedDB) embeddedDB
    else none
  | some content => openDatabase env openDB fs content

/-- An entry of the embedded directory `uploads`: its name and what
`embeddedUploads.ReadFile` returns for it (`none` on error, e.g. a directory). -/
structure EmbeddedEntry where
  name : String
  data : Option Bytes
deriving DecidableEq, Repr

/-- The loop of `restoreUploads` (lines 88-104). -/
def restoreLoop (env : Env) : List EmbeddedEntry → FileSystem → FileSystem
  | [], fs => fs
  | file :: rest, fs =>
    if fs.read (dstPath env file.name) = none then
      match file.data with
      | none => restoreLoop env rest fs
      | some data =>
        if env.canWrite (dstPath env file.name) then
          restoreLoop env rest (fs.write (dstPath env file.name) data)
        else restoreLoop env rest fs
    else restoreLoop env rest fs

/-- Function `restoreUploads` (lines 75-107): the new file system and the value
assigned to the global `uploadsPath`. -/
def restoreUploads (env : Env) (embeddedUploads : List EmbeddedEntry) (fs : FileSystem) :
    FileSystem × String :=
  (restoreLoop env embeddedUploads fs, uploadsDir env)

/-- The bootstrap of `main` (lines 112-113): `initDB()` then `restoreUploads()`. -/
def bootstrap (env : Env) (openDB : Bytes → Option Bytes) (embeddedDB : Bytes)
    (embeddedUploads : List EmbeddedEntry) (fs : FileSystem) :
    Option (FileSystem × String) :=
  match initDB env openDB embeddedDB fs with
  | none => none
  | some fs1 => some (restoreUploads env embeddedUploads fs1)

/-! ## Photo upload (`main.go`, lines 215-238) and the static route (line 126) -/

/-- State of the running server: the database, the file system and the global
`uploadsPath`. -/
structure World where
  db : Store
  fs : FileSystem
  uploadsPath : String
deriving DecidableEq, Repr

/-- The multipart file of a request (`*multipart.FileHeader`): the field
`Filename` as the multipart reader reports it, and the bytes. -/
structure FileHeader where
  Filename : String
  content : Bytes
deriving DecidableEq, Repr

/-- Line 224: `fmt.Sprintf("uploads/%d_%s", albumID, filepath.Base(file.Filename))`. -/
def uploadDestination (albumID : Int) (filename : String) : String :=
  "uploads/" ++ formatInt albumID ++ "_" ++ base filename

/-- Handler `uploadPhoto` (lines 215-238).  `file` is the outcome of
`c.FormFile("photo")`, `none` for its error.  `c.SaveUploadedFile` writes the
bytes to the relative path `filename`, which the operating system resolves against
the working directory; when it fails nothing is recorded. -/
def uploadPhoto (env : Env) (id : String) (file : Option FileHeader) (w : World) :
    Response × World :=
  let albumID := (atoi id).1
  match file with
  | none => (⟨400, Payload.error "Файл обязателен"⟩, w)
  | some file =>
    let filename := uploadDestination albumID file.Filename
    if env.canWrite (absolute env filename) then
      let photo : Photo :=
        { ID := 0, AlbumID := toUint albumID, Title := file.Filename, URL := "/" ++ filename }
      let created := createPhotoRow w.db photo
      (⟨201, Payload.photo created.2⟩,
        { w with db := created.1, fs := w.fs.write (absolute env filename) file.content })
    else (⟨500, Payload.error "Ошибка сохранения файла"⟩, w)

/-- Removes the leading characters `lead` from `s`; `none` when `s` does not start
with them. -/
def afterLeading : List Char → List Char → Option (List Char)
  | [], s => some s
  | _ :: _, [] => none
  | a :: lead, c :: s => if a = c then afterLeading lead s else none

/-- The file a URL of the static route resolves to: `r.Static("/uploads", uploadsPath)`
(line 126) maps `/uploads/<name>` to the file `<name>` of the directory `uploadsPath`. -/
def staticPath (w : World) (url : String) : Option String :=
  (afterLeading "/uploads/".data url.data).map (fun name => w.uploadsPath ++ "/" ++ String.mk name)

/-- What a GET of `url` on the static route serves: the content of the file it
resolves to, `none` (404) when the URL is not of the route or no file is there. -/
def staticFile (w : World) (url : String) : Option Bytes :=
  match staticPath w url with
  | none => none
  | some path => w.fs.read path

/-- The state `main` serves requests from (lines 112-126): the bootstrap has run,
the global `uploadsPath` holds what `restoreUploads` assigned, and `db` holds the
tables `gorm.Open` reads. -/
def serverStart (env : Env) (openDB : Bytes → Option Bytes) (embeddedDB : Bytes)
    (embeddedUploads : List EmbeddedEntry) (fs : FileSystem) (db : Store) : Option World :=
  match bootstrap env openDB embeddedDB embeddedUploads fs with
  | none => none
  | some r => some ⟨db, r.1, r.2⟩

/-- The first bytes of an SQLite database file: `SQLite format 3` and a zero byte. -/
def sqliteHeader : Bytes :=
  [83, 81, 76, 105, 116, 101, 32, 102, 111, 114, 109, 97, 116, 32, 51, 0]

/-- An instance of the database engine, for evaluating the bootstrap at concrete
inputs: an empty file is an empty database, in which `AutoMigrate` creates the
tables (the content it leaves is stood for by the header); a file that starts with
the header opens and is left as it is; any other file is not a database. -/
def sampleOpen (content : Bytes) : Option Bytes :=
  if content = [] then some sqliteHeader
  else if content.take 16 = sqliteHeader then some content
  else none

/-- The album key a handler looks up for a path parameter: `strconv.Atoi` of the
parameter (error ignored), compared with the `uint` keys of the table. -/
def paramKey (id : String) : Nat := toUint (atoi id).1

/-! ## Properties of `deleteAlbum` -/

theorem deleteAlbum_store (id : String) (s : Store) :
    (deleteAlbum id s).2 =
      { s with
        photos := s.photos.filter (fun p => p.AlbumID ≠ paramKey id),
        albums := s.albums.filter (fun a => a.ID ≠ paramKey id) } := by
  unfold deleteAlbum deleteAlbumRow deletePhotosWhere paramKey
  dsimp only
  split <;> rfl

theorem deleteAlbum_response (id : String) (s : Store) :
    (deleteAlbum id s).1 =
      if (s.albums.filter (fun a => a.ID = paramKey id)).length = 0
      then ⟨404, Payload.message "Album not found"⟩
      else ⟨200, Payload.message "Album deleted"⟩ := by
  unfold deleteAlbum deleteAlbumRow deletePhotosWhere paramKey
  dsimp only
  split <;> rfl

theorem length_filter_split {α : Type} (l : List α) (q : α → Prop) [DecidablePred q] :
    (l.filter (fun x => ¬ q x)).length + (l.filter (fun x => q x)).length = l.length := by
  induction l with
  | nil => rfl
  | cons x xs ih =>
    by_cases hx : q x
    · simp only [List.filter_cons, hx, not_true_eq_false, decide_False, decide_True,
        if_true, List.length_cons] at ih ⊢
      simp only [Bool.false_eq_true, if_false]
      omega
    · simp only [List.filter_cons, hx, not_false_eq_true, decide_False, decide_True,
        if_true, List.length_cons] at ih ⊢
      simp only [Bool.false_eq_true, if_false]
      omega

/-! ## `strconv.Atoi` reads back `%d` -/

theorem digitOf_digitChar (d : Nat) (h : d < 10) : digitOf (Nat.digitChar d) = some d := by
  interval_cases d <;> rfl

theorem toDigitsCore_acc (fuel : Nat) : ∀ (n : Nat) (acc : List Char),
    Nat.toDigitsCore 10 fuel n acc = Nat.toDigitsCore 10 fuel n [] ++ acc := by
  induction fuel with
  | zero => intro n acc; simp [Nat.toDigitsCore]
  | succ f ih =>
    intro n acc
    simp only [Nat.toDigitsCore]
    split
    · simp
    · rw [ih (n / 10) (Nat.digitChar (n % 10) :: acc), ih (n / 10) [Nat.digitChar (n % 10)]]
      simp

theorem toDigitsCore_digits (fuel : Nat) : ∀ (n : Nat) (acc : List Char),
    ∀ c ∈ Nat.toDigitsCore 10 fuel n acc, c ∈ acc ∨ ∃ d, d < 10 ∧ c = Nat.digitChar d := by
  induction fuel with
  | zero => intro n acc c hc; left; simpa [Nat.toDigitsCore] using hc
  | succ f ih =>
    intro n acc c hc
    simp only [Nat.toDigitsCore] at hc
    split at hc
    · rcases List.mem_cons.mp hc with h | h
      · right; exact ⟨n % 10, Nat.mod_lt _ (by decide), h⟩
      · left; exact h
    · rcases ih _ _ c hc with h | h
      · rcases List.mem_cons.mp h with h | h
        · right; exact ⟨n % 10, Nat.mod_lt _ (by decide), h⟩
        · left; exact h
      · right; exact h

theorem parseUintLoop_append (l r : List Char) : ∀ n : Nat,
    parseUintLoop (l ++ r) n =
      match parseUintLoop l n with
      | NumResult.ok m => parseUintLoop r m
      | e => e := by
  induction l with
  | nil => intro n; simp [parseUintLoop]
  | cons c cs ih =>
    intro n
    simp only [List.cons_append, parseUintLoop]
    cases digitOf c with
    | none => simp
    | some d =>
      simp only
      split
      · rfl
      · split
        · rfl
        · exact ih _

theorem parseUintLoop_toDigitsCore (fuel : Nat) : ∀ n : Nat, n < fuel → n ≤ maxUint64 →
    parseUintLoop (Nat.toDigitsCore 10 fuel n []) 0 = NumResult.ok n := by
  induction fuel with
  | zero => intro n h; omega
  | succ f ih =>
    intro n hf hn
    have hd := digitOf_digitChar (n % 10) (Nat.mod_lt _ (by decide))
    unfold maxUint64 at hn
    simp only [Nat.toDigitsCore]
    split
    · rename_i h0
      have : n % 10 = n := by omega
      simp only [parseUintLoop, hd, maxUint64]
      rw [if_neg (by omega), if_neg (by omega)]
      simp [this]
    · rename_i h0
      rw [toDigitsCore_acc, parseUintLoop_append, ih (n / 10) (by omega) (by unfold maxUint64; omega)]
      simp only [parseUintLoop, hd, maxUint64]
      rw [if_neg (by omega), if_neg (by omega)]
      congr 1
      omega

theorem toDigits_cons (n : Nat) :
    ∃ c cs, Nat.toDigits 10 n = c :: cs ∧ ∀ x ∈ c :: cs, ∃ d, d < 10 ∧ x = Nat.digitChar d := by
  have hall : ∀ x ∈ Nat.toDigits 10 n, ∃ d, d < 10 ∧ x = Nat.digitChar d := by
    intro x hx
    rcases toDigitsCore_digits (n + 1) n [] x hx with h | h
    · simp at h
    · exact h
  have hne : Nat.toDigits 10 n ≠ [] := by
    unfold Nat.toDigits
    simp only [Nat.toDigitsCore]
    split
    · simp
    · rw [toDigitsCore_acc]; simp
  cases hl : Nat.toDigits 10 n with
  | nil => exact absurd hl hne
  | cons c cs => exact ⟨c, cs, rfl, by rw [← hl]; exact hall⟩

theorem digitChar_ne (d : Nat) (h : d < 10) :
    Nat.digitChar d ≠ '+' ∧ Nat.digitChar d ≠ '-' ∧ Nat.digitChar d ≠ '/' := by
  interval_cases d <;> decide

/-- Round trip: `strconv.Atoi` reads back the decimal form of every value of `int`
that is not negative. -/
theorem atoi_decimal (n : Nat) (h : n ≤ maxRowid) : atoi (decimal n) = ((n : Int), false) := by
  obtain ⟨c, cs, hl, hall⟩ := toDigits_cons n
  obtain ⟨d, hd, hc⟩ := hall c (List.mem_cons_self _ _)
  have hne := digitChar_ne d hd
  have hp : parseUintLoop (c :: cs) 0 = NumResult.ok n := by
    rw [← hl]
    exact parseUintLoop_toDigitsCore (n + 1) n (by omega) (by unfold maxRowid at h; unfold maxUint64; omega)
  unfold maxRowid at h
  unfold atoi decimal
  simp only [hl, parseInt]
  rw [← hc] at hne
  simp only [hne.1, hne.2.1, or_self, if_false, decide_False, parseUint, hp]
  simp
  omega

theorem paramKey_decimal (n : Nat) (h : n ≤ maxRowid) : paramKey (decimal n) = n := by
  unfold paramKey toUint
  rw [atoi_decimal n h]
  unfold maxRowid at h
  simp only
  omega

theorem deleteAlbum_by_key (id : String) (s : Store) :
    (∀ p ∈ (deleteAlbum id s).2.photos, p.AlbumID ≠ paramKey id) ∧
    (∀ a ∈ (deleteAlbum id s).2.albums, a.ID ≠ paramKey id) ∧
    getPhotosByAlbum id (deleteAlbum id s).2 = ⟨200, Payload.photos []⟩ ∧
    getAlbumByID id (deleteAlbum id s).2 = ⟨404, Payload.message "Album not found"⟩ ∧
    (deleteAlbum id s).2 =
      { s with
        photos := s.photos.filter (fun p => p.AlbumID ≠ paramKey id),
        albums := s.albums.filter (fun a => a.ID ≠ paramKey id) } ∧
    (deleteAlbum id s).2.photos.length +
        (s.photos.filter (fun p => p.AlbumID = paramKey id)).length = s.photos.length ∧
    (deleteAlbum id s).2.albums.length +
        (s.albums.filter (fun a => a.ID = paramKey id)).length = s.albums.length := by
  rw [deleteAlbum_store]
  refine ⟨?_, ?_, ?_, ?_, rfl, ?_, ?_⟩
  · intro p hp
    simpa using (List.mem_filter.mp hp).2
  · intro a ha
    simpa using (List.mem_filter.mp ha).2
  · unfold getPhotosByAlbum findPhotosWhere
    have hnil : List.filter (fun p => decide (p.AlbumID = toUint (atoi id).1))
        (s.photos.filter (fun p => p.AlbumID ≠ paramKey id)) = [] := by
      rw [List.filter_eq_nil_iff]
      intro p hp
      have := (List.mem_filter.mp hp).2
      simpa [paramKey] using this
    simp only [hnil, List.map_nil]
  · unfold getAlbumByID firstAlbum
    have hnone : List.find? (fun a => decide (a.ID = toUint (atoi id).1))
        (s.albums.filter (fun a => a.ID ≠ paramKey id)) = none := by
      rw [List.find?_eq_none]
      intro a ha
      have := (List.mem_filter.mp ha).2
      simpa [paramKey] using this
    simp only [hnone]
  · exact length_filter_split s.photos (fun p => p.AlbumID = paramKey id)
  · exact length_filter_split s.albums (fun a => a.ID = paramKey id)

theorem deleteAlbum_status_by_key (id : String) (s : Store) :
    ((deleteAlbum id s).1 = ⟨404, Payload.message "Album not found"⟩ ↔
      ∀ a ∈ s.albums, a.ID ≠ paramKey id) ∧
    ((deleteAlbum id s).1 = ⟨200, Payload.message "Album deleted"⟩ ↔
      ∃ a ∈ s.albums, a.ID = paramKey id) ∧
    ((∀ a ∈ s.albums, a.ID ≠ paramKey id) →
      (deleteAlbum id s).2 =
        { s with photos := s.photos.filter (fun p => p.AlbumID ≠ paramKey id) } ∧
      ∀ p ∈ (deleteAlbum id s).2.photos, p.AlbumID ≠ paramKey id) := by
  have hlen : (s.albums.filter (fun a => a.ID = paramKey id)).length = 0 ↔
      ∀ a ∈ s.albums, a.ID ≠ paramKey id := by
    rw [List.length_eq_zero, List.filter_eq_nil_iff]
    simp
  have hne : (⟨200, Payload.message "Album deleted"⟩ : Response) ≠
      ⟨404, Payload.message "Album not found"⟩ := by decide
  refine ⟨?_, ?_, ?_⟩
  · rw [deleteAlbum_response]
    by_cases hz : (s.albums.filter (fun a => a.ID = paramKey id)).length = 0
    · rw [if_pos hz]
      exact ⟨fun _ => hlen.mp hz, fun _ => rfl⟩
    · rw [if_neg hz]
      exact ⟨fun h => absurd h hne, fun h => absurd (hlen.mpr h) hz⟩
  · rw [deleteAlbum_response]
    by_cases hz : (s.albums.filter (fun a => a.ID = paramKey id)).length = 0
    · rw [if_pos hz]
      refine ⟨fun h => absurd h.symm hne, ?_⟩
      rintro ⟨a, ha, hk⟩
      exact absurd hk (hlen.mp hz a ha)
    · rw [if_neg hz]
      refine ⟨fun _ => ?_, fun _ => rfl⟩
      by_contra hcon
      exact hz (hlen.mpr (fun a ha hk => hcon ⟨a, ha, hk⟩))
  · intro h
    rw [deleteAlbum_store]
    refine ⟨?_, ?_⟩
    · have hall : s.albums.filter (fun a => a.ID ≠ paramKey id) = s.albums := by
        rw [List.filter_eq_self]
        intro a ha
        simpa using h a ha
      rw [hall]
    · intro p hp
      simpa using (List.mem_filter.mp hp).2

/-- C1 as stated fails for ids above `2^63 - 1`, which `strconv.Atoi` clamps to
`2^63 - 1` (the error is ignored).  For id `2^64 - 1` (the `AlbumID` an upload to
`-1` stores) `deleteAlbum` answers 404 and the photo whose `AlbumID` is that id is
still in the store.  For id `2^63` it removes the album `2^63 - 1` and the photo of
that album, records with another id. -/
theorem deleteAlbum_large_id_counterexample :
    deleteAlbum (decimal 18446744073709551615)
        ⟨[⟨1, "Vacation"⟩],
          [⟨1, 18446744073709551615, "beach.jpg", "/uploads/-1_beach.jpg"⟩], 1, 1⟩ =
      (⟨404, Payload.message "Album not found"⟩,
        ⟨[⟨1, "Vacation"⟩],
          [⟨1, 18446744073709551615, "beach.jpg", "/uploads/-1_beach.jpg"⟩], 1, 1⟩) ∧
    deleteAlbum (decimal 9223372036854775808)
        ⟨[⟨9223372036854775807, "Last"⟩],
          [⟨1, 9223372036854775807, "a.jpg", "/uploads/9223372036854775807_a.jpg"⟩],
          9223372036854775807, 1⟩ =
      (⟨200, Payload.message "Album deleted"⟩, ⟨[], [], 9223372036854775807, 1⟩) := by
  decide

/-- C1 (amended): for every store and every album id `n` up to `2^63 - 1`, passed
as its decimal form, after `deleteAlbum` the store holds no photo whose `AlbumID`
is `n` and no album with id `n`, so `getPhotosByAlbum` of `n` then answers 200 with
the empty list and `getAlbumByID` of `n` answers 404; the store is the old one with
exactly the photos of album `n` and the album `n` taken out (the other records
unchanged and in their order, the sequences unchanged), and the numbers removed
are the numbers of matching records. -/
theorem deleteAlbum_removes_album_and_photos (n : Nat) (s : Store) (hn : n ≤ maxRowid) :
    (∀ p ∈ (deleteAlbum (decimal n) s).2.photos, p.AlbumID ≠ n) ∧
    (∀ a ∈ (deleteAlbum (decimal n) s).2.albums, a.ID ≠ n) ∧
    getPhotosByAlbum (decimal n) (deleteAlbum (decimal n) s).2 = ⟨200, Payload.photos []⟩ ∧
    getAlbumByID (decimal n) (deleteAlbum (decimal n) s).2 =
      ⟨404, Payload.message "Album not found"⟩ ∧
    (deleteAlbum (decimal n) s).2 =
      { s with
        photos := s.photos.filter (fun p => p.AlbumID ≠ n),
        albums := s.albums.filter (fun a => a.ID ≠ n) } ∧
    (deleteAlbum (decimal n) s).2.photos.length +
        (s.photos.filter (fun p => p.AlbumID = n)).length = s.photos.length ∧
    (deleteAlbum (decimal n) s).2.albums.length +
        (s.albums.filter (fun a => a.ID = n)).length = s.albums.length := by
  have h := deleteAlbum_by_key (decimal n) s
  rw [paramKey_decimal n hn] at h
  exact h

theorem deleteAlbum_removes_album_and_photos_witness :
    (1 ≤ maxRowid) ∧
    deleteAlbum (decimal 1)
        ⟨[⟨1, "Vacation"⟩, ⟨2, "Work"⟩],
          [⟨1, 1, "beach.jpg", "/uploads/1_beach.jpg"⟩, ⟨2, 2, "desk.jpg", "/uploads/2_desk.jpg"⟩,
            ⟨3, 1, "sea.jpg", "/uploads/1_sea.jpg"⟩], 2, 3⟩ =
      (⟨200, Payload.message "Album deleted"⟩,
        ⟨[⟨2, "Work"⟩], [⟨2, 2, "desk.jpg", "/uploads/2_desk.jpg"⟩], 2, 3⟩) ∧
    getPhotosByAlbum (decimal 1)
        (deleteAlbum (decimal 1)
          ⟨[⟨1, "Vacation"⟩, ⟨2, "Work"⟩],
            [⟨1, 1, "beach.jpg", "/uploads/1_beach.jpg"⟩,
              ⟨2, 2, "desk.jpg", "/uploads/2_desk.jpg"⟩,
              ⟨3, 1, "sea.jpg", "/uploads/1_sea.jpg"⟩], 2, 3⟩).2 =
      ⟨200, Payload.photos []⟩ :=
  ⟨by decide, by decide,
    (deleteAlbum_removes_album_and_photos 1
      ⟨[⟨1, "Vacation"⟩, ⟨2, "Work"⟩],
        [⟨1, 1, "beach.jpg", "/uploads/1_beach.jpg"⟩, ⟨2, 2, "desk.jpg", "/uploads/2_desk.jpg"⟩,
          ⟨3, 1, "sea.jpg", "/uploads/1_sea.jpg"⟩], 2, 3⟩ (by decide)).2.2.1⟩

/-- C8 as stated fails for ids above `2^63 - 1`.  For id `2^63` no album has that
id, yet `deleteAlbum` answers 200 and removes the album `2^63 - 1`.  For id
`2^64 - 1` it answers 404, the photo whose `AlbumID` is that id is still there,
and the photo of album `2^63 - 1`, another `AlbumID`, is gone. -/
theorem deleteAlbum_status_counterexample :
    (∀ a ∈ ([⟨1, "Vacation"⟩, ⟨9223372036854775807, "Last"⟩] : List Album),
      a.ID ≠ 9223372036854775808) ∧
    deleteAlbum (decimal 9223372036854775808)
        ⟨[⟨1, "Vacation"⟩, ⟨9223372036854775807, "Last"⟩], [], 9223372036854775807, 0⟩ =
      (⟨200, Payload.message "Album deleted"⟩,
        ⟨[⟨1, "Vacation"⟩], [], 9223372036854775807, 0⟩) ∧
    deleteAlbum (decimal 18446744073709551615)
        ⟨[⟨1, "Vacation"⟩],
          [⟨1, 18446744073709551615, "beach.jpg", "/uploads/-1_beach.jpg"⟩,
            ⟨2, 9223372036854775807, "a.jpg", "/uploads/9223372036854775807_a.jpg"⟩], 1, 2⟩ =
      (⟨404, Payload.message "Album not found"⟩,
        ⟨[⟨1, "Vacation"⟩],
          [⟨1, 18446744073709551615, "beach.jpg", "/uploads/-1_beach.jpg"⟩], 1, 2⟩) := by
  decide

/-- C8 (amended): for every album id `n` up to `2^63 - 1`, passed as its decimal
form, `deleteAlbum` answers 404 exactly when no album has id `n` and 200 with
message "Album deleted" exactly when one has; in the 404 case the album table and
both sequences are unchanged while the photos whose `AlbumID` is `n` are gone and
the other photos are unchanged. -/
theorem deleteAlbum_status_and_orphans (n : Nat) (s : Store) (hn : n ≤ maxRowid) :
    ((deleteAlbum (decimal n) s).1 = ⟨404, Payload.message "Album not found"⟩ ↔
      ∀ a ∈ s.albums, a.ID ≠ n) ∧
    ((deleteAlbum (decimal n) s).1 = ⟨200, Payload.message "Album deleted"⟩ ↔
      ∃ a ∈ s.albums, a.ID = n) ∧
    ((∀ a ∈ s.albums, a.ID ≠ n) →
      (deleteAlbum (decimal n) s).2 =
        { s with photos := s.photos.filter (fun p => p.AlbumID ≠ n) } ∧
      ∀ p ∈ (deleteAlbum (decimal n) s).2.photos, p.AlbumID ≠ n) := by
  have h := deleteAlbum_status_by_key (decimal n) s
  rw [paramKey_decimal n hn] at h
  exact h

theorem deleteAlbum_status_and_orphans_witness :
    (5 ≤ maxRowid) ∧
    (deleteAlbum (decimal 5)
        ⟨[⟨1, "Vacation"⟩],
          [⟨1, 1, "beach.jpg", "/uploads/1_beach.jpg"⟩, ⟨2, 5, "lost.jpg", "/uploads/5_lost.jpg"⟩],
          1, 2⟩ =
      (⟨404, Payload.message "Album not found"⟩,
        ⟨[⟨1, "Vacation"⟩], [⟨1, 1, "beach.jpg", "/uploads/1_beach.jpg"⟩], 1, 2⟩)) ∧
    ((deleteAlbum (decimal 5)
        ⟨[⟨1, "Vacation"⟩],
          [⟨1, 1, "beach.jpg", "/uploads/1_beach.jpg"⟩, ⟨2, 5, "lost.jpg", "/uploads/5_lost.jpg"⟩],
          1, 2⟩).1 = ⟨404, Payload.message "Album not found"⟩ ↔
      ∀ a ∈ ([⟨1, "Vacation"⟩] : List Album), a.ID ≠ 5) :=
  ⟨by decide, by decide,
    (deleteAlbum_status_and_orphans 5
      ⟨[⟨1, "Vacation"⟩],
        [⟨1, 1, "beach.jpg", "/uploads/1_beach.jpg"⟩, ⟨2, 5, "lost.jpg", "/uploads/5_lost.jpg"⟩],
        1, 2⟩ (by decide)).1⟩

/-- C10: without the multipart file `photo`, `uploadPhoto` answers 400 and returns
the state it was given: database (albums, photos, sequences), file system and
upload path are unchanged, for every path parameter. -/
theorem uploadPhoto_without_file (env : Env) (id : String) (w : World) :
    uploadPhoto env id none w = (⟨400, Payload.error "Файл обязателен"⟩, w) := by
  rfl

/-! ## Key assignment -/

theorem foldl_max_ge_init (l : List Nat) : ∀ a : Nat, a ≤ l.foldl max a := by
  induction l with
  | nil => intro a; exact Nat.le_refl a
  | cons x xs ih => intro a; exact Nat.le_trans (Nat.le_max_left a x) (ih (max a x))

theorem foldl_max_ge_mem (l : List Nat) : ∀ a : Nat, ∀ x ∈ l, x ≤ l.foldl max a := by
  induction l with
  | nil => intro a x hx; simp at hx
  | cons y ys ih =>
    intro a x hx
    rcases List.mem_cons.mp hx with h | h
    · subst h
      exact Nat.le_trans (Nat.le_max_right a x) (foldl_max_ge_init ys (max a x))
    · exact ih (max a y) x h

theorem foldl_max_mem (l : List Nat) : ∀ a : Nat, l.foldl max a = a ∨ l.foldl max a ∈ l := by
  induction l with
  | nil => intro a; left; rfl
  | cons y ys ih =>
    intro a
    rcases ih (max a y) with h | h
    · rw [List.foldl_cons, h]
      rcases Nat.le_total a y with hay | hay
      · right; rw [Nat.max_eq_right hay]; exact List.mem_cons_self _ _
      · left; exact Nat.max_eq_left hay
    · right; exact List.mem_cons_of_mem _ h

theorem le_largestRowid (ids : List Nat) (i : Nat) (hi : i ∈ ids) (hle : i ≤ maxRowid) :
    i ≤ largestRowid ids := by
  unfold largestRowid
  apply foldl_max_ge_mem
  exact List.mem_filter.mpr ⟨hi, by simpa using hle⟩

theorem largestRowid_lt (ids : List Nat) (h : ∀ i ∈ ids, i ≠ maxRowid) :
    largestRowid ids < maxRowid := by
  unfold largestRowid
  rcases foldl_max_mem (ids.filter (fun i => i ≤ maxRowid)) 0 with h0 | hm
  · rw [h0]; decide
  · have hm2 := List.mem_filter.mp hm
    have hle : List.foldl max 0 (ids.filter (fun i => i ≤ maxRowid)) ≤ maxRowid := by
      simpa using hm2.2
    exact Nat.lt_of_le_of_ne hle (h _ hm2.1)

/-- The key `nextRowid` hands out is positive, at most `maxRowid`, and held by no
row of the table. -/
theorem nextRowid_fresh (seq : Nat) (ids : List Nat) (id : Nat)
    (h : nextRowid seq ids = some id) : 0 < id ∧ id ≤ maxRowid ∧ id ∉ ids := by
  unfold nextRowid at h
  split at h
  · rename_i hlt
    have hid : id = max seq (largestRowid ids) + 1 := by
      injection h with h; exact h.symm
    refine ⟨by omega, by omega, ?_⟩
    intro hmem
    have := le_largestRowid ids id hmem (by omega)
    have := Nat.le_max_right seq (largestRowid ids)
    omega
  · cases h

/-- While the largest row id has not been used, `nextRowid` hands out a key. -/
theorem nextRowid_some (seq : Nat) (ids : List Nat) (hseq : seq < maxRowid)
    (h : ∀ i ∈ ids, i ≠ maxRowid) :
    nextRowid seq ids = some (max seq (largestRowid ids) + 1) := by
  unfold nextRowid
  have := largestRowid_lt ids h
  rw [if_pos (by
    rcases Nat.le_total seq (largestRowid ids) with hle | hle
    · rw [Nat.max_eq_right hle]; exact this
    · rw [Nat.max_eq_left hle]; exact hseq)]

/-- `db.First` on a table extended by one row with a key no other row has. -/
theorem firstAlbum_append_fresh (s : Store) (a : Album) (seq : Nat)
    (hfresh : ∀ b ∈ s.albums, b.ID ≠ a.ID) (i : Int) (hi : toUint i = a.ID) :
    firstAlbum { s with albums := s.albums ++ [a], albumSeq := seq } i = some a := by
  unfold firstAlbum
  simp only [List.find?_append]
  have hnone : List.find? (fun b => decide (b.ID = toUint i)) s.albums = none := by
    rw [List.find?_eq_none]
    intro b hb
    simpa [hi] using hfresh b hb
  rw [hnone]
  simp [hi]

/-! ## Claims about `createAlbum` -/

/-- C2 (the code at the failing input): the body `id = 1, title = "Other"` binds,
an album with key 1 exists, the insert fails on the key, and `createAlbum` still
answers 201 with the body's record while the store is unchanged: the record of the
response is persisted nowhere and its id was in use before the call.  With the
unused id 7 in the body the new album gets the key 7 the client chose. -/
theorem createAlbum_binds_client_id :
    createAlbum (Except.ok ⟨1, "Other"⟩) ⟨[⟨1, "Vacation"⟩], [], 1, 0⟩ =
      (⟨201, Payload.album ⟨1, "Other"⟩⟩, ⟨[⟨1, "Vacation"⟩], [], 1, 0⟩) ∧
    createAlbum (Except.ok ⟨7, "Other"⟩) ⟨[⟨1, "Vacation"⟩], [], 1, 0⟩ =
      (⟨201, Payload.album ⟨7, "Other"⟩⟩,
        ⟨[⟨1, "Vacation"⟩, ⟨7, "Other"⟩], [], 7, 0⟩) := by
  decide

/-- C3 as stated fails: in a store whose album table holds the largest row id
`2^63 - 1`, `createAlbum` with payload title "x" cannot assign a key; it answers
201 with id 0, persists nothing, and `getAlbumByID` of that id answers 404. -/
theorem createAlbum_full_table_counterexample :
    createAlbum (Except.ok ⟨0, "x"⟩) ⟨[⟨9223372036854775807, "Last"⟩], [], 9223372036854775807, 0⟩ =
      (⟨201, Payload.album ⟨0, "x"⟩⟩,
        ⟨[⟨9223372036854775807, "Last"⟩], [], 9223372036854775807, 0⟩) ∧
    getAlbumByID (decimal 0) ⟨[⟨9223372036854775807, "Last"⟩], [], 9223372036854775807, 0⟩ =
      ⟨404, Payload.message "Album not found"⟩ := by
  decide

/-- C3 (amended): in every store whose album table has not used the largest row id
(no album has key `2^63 - 1` and the sequence is below it), for every title `t`,
`createAlbum` with payload title `t` answers 201 with a record `r` whose title is
`t` and whose key no album had before, the store gains exactly `r`, and
`getAlbumByID` called with the decimal form of `r.ID` on the resulting store
answers 200 with the record of id `r.ID` and title `t`. -/
theorem createAlbum_then_getAlbumByID (s : Store) (t : String)
    (hseq : s.albumSeq < maxRowid) (hfull : ∀ a ∈ s.albums, a.ID ≠ maxRowid) :
    ∃ r : Album,
      (createAlbum (Except.ok ⟨0, t⟩) s).1 = ⟨201, Payload.album r⟩ ∧
      r.Title = t ∧
      (∀ a ∈ s.albums, a.ID ≠ r.ID) ∧
      (createAlbum (Except.ok ⟨0, t⟩) s).2.albums = s.albums ++ [r] ∧
      getAlbumByID (decimal r.ID) (createAlbum (Except.ok ⟨0, t⟩) s).2 =
        ⟨200, Payload.album ⟨r.ID, t⟩⟩ := by
  have hids : ∀ i ∈ s.albums.map Album.ID, i ≠ maxRowid := by
    intro i hi
    obtain ⟨a, ha, rfl⟩ := List.mem_map.mp hi
    exact hfull a ha
  have hnext := nextRowid_some s.albumSeq (s.albums.map Album.ID) hseq hids
  obtain ⟨hpos, hle, hnot⟩ := nextRowid_fresh _ _ _ hnext
  have hfresh : ∀ a ∈ s.albums, a.ID ≠ max s.albumSeq (largestRowid (s.albums.map Album.ID)) + 1 := by
    intro a ha heq
    exact hnot (List.mem_map.mpr ⟨a, ha, heq⟩)
  refine ⟨⟨max s.albumSeq (largestRowid (s.albums.map Album.ID)) + 1, t⟩, ?_, rfl, hfresh, ?_, ?_⟩
  · simp only [createAlbum, createAlbumRow, if_true, hnext]
  · simp only [createAlbum, createAlbumRow, if_true, hnext]
  · simp only [createAlbum, createAlbumRow, if_true, hnext, getAlbumByID]
    rw [atoi_decimal _ hle]
    rw [firstAlbum_append_fresh s ⟨max s.albumSeq (largestRowid (s.albums.map Album.ID)) + 1, t⟩ _
      hfresh _ (by
        have := paramKey_decimal _ hle
        unfold paramKey at this
        rw [atoi_decimal _ hle] at this
        exact this)]

theorem createAlbum_then_getAlbumByID_witness :
    ∃ r : Album,
      (createAlbum (Except.ok ⟨0, "Vacation"⟩) ⟨[⟨1, "Work"⟩], [], 1, 0⟩).1 =
        ⟨201, Payload.album r⟩ ∧
      r.Title = "Vacation" ∧
      (∀ a ∈ ([⟨1, "Work"⟩] : List Album), a.ID ≠ r.ID) ∧
      (createAlbum (Except.ok ⟨0, "Vacation"⟩) ⟨[⟨1, "Work"⟩], [], 1, 0⟩).2.albums =
        [⟨1, "Work"⟩] ++ [r] ∧
      getAlbumByID (decimal r.ID)
          (createAlbum (Except.ok ⟨0, "Vacation"⟩) ⟨[⟨1, "Work"⟩], [], 1, 0⟩).2 =
        ⟨200, Payload.album ⟨r.ID, "Vacation"⟩⟩ :=
  createAlbum_then_getAlbumByID ⟨[⟨1, "Work"⟩], [], 1, 0⟩ "Vacation" (by decide) (by decide)

/-! ## The bootstrap on the file system -/

theorem read_write (fs : FileSystem) (p q : String) (d : Bytes) :
    (fs.write p d).read q = if q = p then some d else fs.read q := by
  unfold FileSystem.read FileSystem.write
  by_cases h : q = p
  · subst h
    simp [List.find?_cons]
  · have hpq : ¬ p = q := fun e => h e.symm
    simp only [List.find?_cons, hpq, decide_False, if_neg h]
    congr 1
    rw [List.find?_filter]
    congr 1
    funext a
    by_cases ha : a.1 = q
    · have hap : ¬ a.1 = p := by rw [ha]; exact h
      simp [ha, hap, h]
    · simp [ha]

theorem string_append_left_cancel (a b c : String) (h : a ++ b = a ++ c) : b = c := by
  have hd := congrArg String.data h
  simp only [String.data_append] at hd
  exact String.ext (List.append_cancel_left hd)

theorem dstPath_injective (env : Env) (n m : String) (h : dstPath env n = dstPath env m) :
    n = m := by
  unfold dstPath at h
  exact string_append_left_cancel _ _ _ h

theorem dstPath_ne_dbPath (env : Env) (n : String) : dstPath env n ≠ dbPath env := by
  intro h
  unfold dstPath dbPath uploadsDir at h
  have hd := congrArg String.data h
  simp only [String.data_append, List.append_assoc] at hd
  have h2 := List.append_cancel_left hd
  simp at h2

theorem openDatabase_some (env : Env) (openDB : Bytes → Option Bytes) (fs : FileSystem)
    (content m : Bytes) (hm : openDB content = some m)
    (hc : fs.read (dbPath env) = some content) :
    ∃ fs0, openDatabase env openDB fs content = some fs0 ∧
      fs0.read (dbPath env) = some m ∧
      ∀ p, p ≠ dbPath env → fs0.read p = fs.read p := by
  unfold openDatabase
  rw [hm]
  by_cases h : m = content
  · simp only [if_pos h]
    exact ⟨fs, rfl, by rw [hc, h], fun _ _ => rfl⟩
  · simp only [if_neg h]
    exact ⟨_, rfl, by rw [read_write, if_pos rfl], fun p hp => by rw [read_write, if_neg hp]⟩

/-- When the database file can be written and the file in place (or, without one,
the embedded database) opens, `initDB` returns: the database file then holds what
the engine left and no other file has changed. -/
theorem initDB_some (env : Env) (openDB : Bytes → Option Bytes) (embeddedDB : Bytes)
    (fs : FileSystem) (m : Bytes) (hw : env.canWrite (dbPath env) = true)
    (hm : openDB ((fs.read (dbPath env)).getD embeddedDB) = some m) :
    ∃ fs0, initDB env openDB embeddedDB fs = some fs0 ∧
      fs0.read (dbPath env) = some m ∧
      ∀ p, p ≠ dbPath env → fs0.read p = fs.read p := by
  unfold initDB
  cases hr : fs.read (dbPath env) with
  | none =>
    rw [hr] at hm
    simp only [Option.getD_none] at hm
    simp only [hw, if_true]
    obtain ⟨fs0, h1, h2, h3⟩ := openDatabase_some env openDB
      (fs.write (dbPath env) embeddedDB) embeddedDB m hm (by rw [read_write, if_pos rfl])
    exact ⟨fs0, h1, h2, fun p hp => by rw [h3 p hp, read_write, if_neg hp]⟩
  | some c =>
    rw [hr] at hm
    simp only [Option.getD_some] at hm
    simp only
    obtain ⟨fs0, h1, h2, h3⟩ := openDatabase_some env openDB fs c m hm hr
    exact ⟨fs0, h1, h2, fun p hp => by rw [h3 p hp]⟩

/-- On a database file the engine leaves as it is, `initDB` changes nothing. -/
theorem initDB_fixed (env : Env) (openDB : Bytes → Option Bytes) (embeddedDB : Bytes)
    (fs : FileSystem) (m : Bytes) (hr : fs.read (dbPath env) = some m)
    (hm : openDB m = some m) : initDB env openDB embeddedDB fs = some fs := by
  unfold initDB openDatabase
  rw [hr]
  simp only [hm, if_true]

theorem sampleOpen_stable (b m : Bytes) (h : sampleOpen b = some m) :
    sampleOpen m = some m := by
  unfold sampleOpen at h
  split at h
  · injection h with h
    subst h
    decide
  · split at h
    · rename_i hne htake
      injection h with h
      subst h
      unfold sampleOpen
      rw [if_neg hne, if_pos htake]
    · cases h

theorem restoreLoop_preserves (env : Env) (seeds : List EmbeddedEntry) :
    ∀ (fs : FileSystem) (p : String) (c : Bytes), fs.read p = some c →
      (restoreLoop env seeds fs).read p = some c := by
  induction seeds with
  | nil => intro fs p c h; exact h
  | cons f rest ih =>
    intro fs p c h
    unfold restoreLoop
    split
    · rename_i hnone
      split
      · exact ih fs p c h
      · split
        · apply ih
          rw [read_write]
          have : p ≠ dstPath env f.name := by
            intro e; rw [e, hnone] at h; cases h
          rw [if_neg this]; exact h
        · exact ih fs p c h
    · exact ih fs p c h

theorem restoreLoop_seeds (env : Env) (seeds : List EmbeddedEntry)
    (hnodup : (seeds.map EmbeddedEntry.name).Nodup) :
    ∀ (fs : FileSystem) (e : EmbeddedEntry) (d : Bytes), e ∈ seeds → e.data = some d →
      env.canWrite (dstPath env e.name) = true → fs.read (dstPath env e.name) = none →
      (restoreLoop env seeds fs).read (dstPath env e.name) = some d := by
  induction seeds with
  | nil => intro fs e d he; simp at he
  | cons f rest ih =>
    intro fs e d he hd hw hnone
    rw [List.map_cons, List.nodup_cons] at hnodup
    rcases List.mem_cons.mp he with hef | her
    · subst hef
      unfold restoreLoop
      rw [if_pos hnone]
      simp only [hd, hw, if_true]
      apply restoreLoop_preserves
      rw [read_write, if_pos rfl]
    · have hne : dstPath env e.name ≠ dstPath env f.name := by
        intro heq
        have := dstPath_injective env _ _ heq
        exact hnodup.1 (this ▸ List.mem_map_of_mem _ her)
      unfold restoreLoop
      split
      · split
        · exact ih hnodup.2 fs e d her hd hw hnone
        · split
          · apply ih hnodup.2 _ e d her hd hw
            rw [read_write, if_neg hne]; exact hnone
          · exact ih hnodup.2 fs e d her hd hw hnone
      · exact ih hnodup.2 fs e d her hd hw hnone

/-- An entry is settled when the loop of `restoreUploads` leaves it alone: its
destination exists, its content cannot be read, or the file cannot be written. -/
theorem restoreLoop_fixed (env : Env) (seeds : List EmbeddedEntry) (fs : FileSystem)
    (h : ∀ e ∈ seeds, fs.read (dstPath env e.name) ≠ none ∨ e.data = none ∨
      env.canWrite (dstPath env e.name) = false) :
    restoreLoop env seeds fs = fs := by
  induction seeds with
  | nil => rfl
  | cons f rest ih =>
    have hrest := ih (fun e he => h e (List.mem_cons_of_mem _ he))
    unfold restoreLoop
    rcases h f (List.mem_cons_self _ _) with h1 | h1 | h1
    · rw [if_neg h1]; exact hrest
    · split
      · simp only [h1]; exact hrest
      · exact hrest
    · split
      · split
        · exact hrest
        · simp only [h1, Bool.false_eq_true, if_false]; exact hrest
      · exact hrest

theorem restoreLoop_settles (env : Env) (seeds : List EmbeddedEntry) :
    ∀ (fs : FileSystem), ∀ e ∈ seeds,
      (restoreLoop env seeds fs).read (dstPath env e.name) ≠ none ∨ e.data = none ∨
        env.canWrite (dstPath env e.name) = false := by
  induction seeds with
  | nil => intro fs e he; simp at he
  | cons f rest ih =>
    intro fs e he
    have keep : ∀ (g : FileSystem), g.read (dstPath env e.name) ≠ none →
        (restoreLoop env rest g).read (dstPath env e.name) ≠ none := by
      intro g hg
      cases hr : g.read (dstPath env e.name) with
      | none => exact absurd hr hg
      | some c => rw [restoreLoop_preserves env rest g _ c hr]; simp
    rcases List.mem_cons.mp he with hef | her
    · subst hef
      unfold restoreLoop
      split
      · rename_i hnone
        cases hdata : e.data with
        | none => right; left; rfl
        | some d =>
          simp only
          cases hw : env.canWrite (dstPath env e.name) with
          | false => right; right; rfl
          | true =>
            left
            simp only [if_true]
            apply keep
            rw [read_write, if_pos rfl]; simp
      · rename_i hsome
        left; exact keep fs hsome
    · unfold restoreLoop
      split
      · split
        · exact ih fs e her
        · split
          · exact ih _ e her
          · exact ih fs e her
      · exact ih fs e her

/-- C9 as stated fails: an empty file is at the database path before the run.  The
embedded database does not overwrite it, but `initDB` goes on to open it and
`AutoMigrate` creates the tables in it, so after the bootstrap the file that
existed has another content. -/
theorem bootstrap_existing_database_counterexample :
    (⟨[("/tmp/album-server/database.db", [])]⟩ : FileSystem).read
        "/tmp/album-server/database.db" = some [] ∧
    bootstrap ⟨"/tmp", "/srv/app", fun _ => true⟩ sampleOpen [] []
        ⟨[("/tmp/album-server/database.db", [])]⟩ =
      some (⟨[("/tmp/album-server/database.db", sqliteHeader)]⟩,
        "/tmp/album-server/uploads") ∧
    sqliteHeader ≠ [] := by
  decide

/-- C9 (amended): on a file system where writes succeed (a map from path to
content), for embedded entries with distinct names, when the database file in place
(or, without one, the embedded database) opens and the engine leaves a database it
has migrated as it is, the bootstrap (`initDB` then `restoreUploads`) returns a
file system in which every file other than the database file that existed before
has its content, the database file holds what opening and migrating made of the
file that was there (of the embedded database only when none was there), every
embedded upload file whose destination was absent holds the embedded content, and
running the bootstrap again on the result changes nothing. -/
theorem bootstrap_idempotent (env : Env) (openDB : Bytes → Option Bytes)
    (embeddedDB : Bytes) (embeddedUploads : List EmbeddedEntry) (fs : FileSystem)
    (hw : ∀ p, env.canWrite p = true)
    (hnames : (embeddedUploads.map EmbeddedEntry.name).Nodup)
    (hopen : ∃ m, openDB ((fs.read (dbPath env)).getD embeddedDB) = some m)
    (hstable : ∀ b m, openDB b = some m → openDB m = some m) :
    ∃ fs1 : FileSystem,
      bootstrap env openDB embeddedDB embeddedUploads fs = some (fs1, uploadsDir env) ∧
      (∀ p c, p ≠ dbPath env → fs.read p = some c → fs1.read p = some c) ∧
      fs1.read (dbPath env) = openDB ((fs.read (dbPath env)).getD embeddedDB) ∧
      (∀ e ∈ embeddedUploads, ∀ d, e.data = some d → fs.read (dstPath env e.name) = none →
        fs1.read (dstPath env e.name) = some d) ∧
      bootstrap env openDB embeddedDB embeddedUploads fs1 = some (fs1, uploadsDir env) := by
  obtain ⟨m, hm⟩ := hopen
  obtain ⟨fs0, h0, hdb, hothers⟩ := initDB_some env openDB embeddedDB fs m (hw _) hm
  have hdb1 : (restoreLoop env embeddedUploads fs0).read (dbPath env) = some m :=
    restoreLoop_preserves env _ fs0 _ m hdb
  refine ⟨restoreLoop env embeddedUploads fs0, ?_, ?_, ?_, ?_, ?_⟩
  · simp only [bootstrap, h0, restoreUploads]
  · intro p c hp hc
    apply restoreLoop_preserves
    rw [hothers p hp]; exact hc
  · rw [hm]; exact hdb1
  · intro e he d hd hnone
    apply restoreLoop_seeds env embeddedUploads hnames fs0 e d he hd (hw _)
    rw [hothers _ (dstPath_ne_dbPath env e.name)]; exact hnone
  · have hinit := initDB_fixed env openDB embeddedDB (restoreLoop env embeddedUploads fs0) m
      hdb1 (hstable _ _ hm)
    simp only [bootstrap, hinit, restoreUploads]
    rw [restoreLoop_fixed env embeddedUploads _ (restoreLoop_settles env embeddedUploads fs0)]

theorem bootstrap_idempotent_witness :
    ∃ fs1 : FileSystem,
      bootstrap ⟨"/tmp", "/srv/app", fun _ => true⟩ sampleOpen []
          [⟨"cat.jpg", some [1, 2]⟩, ⟨"dog.jpg", some [3]⟩, ⟨"old", none⟩]
          ⟨[("/tmp/album-server/uploads/cat.jpg", [9])]⟩ =
        some (fs1, "/tmp/album-server/uploads") ∧
      fs1.read "/tmp/album-server/uploads/cat.jpg" = some [9] ∧
      fs1.read "/tmp/album-server/uploads/dog.jpg" = some [3] ∧
      fs1.read "/tmp/album-server/database.db" = some sqliteHeader ∧
      bootstrap ⟨"/tmp", "/srv/app", fun _ => true⟩ sampleOpen []
          [⟨"cat.jpg", some [1, 2]⟩, ⟨"dog.jpg", some [3]⟩, ⟨"old", none⟩] fs1 =
        some (fs1, "/tmp/album-server/uploads") := by
  obtain ⟨fs1, h1, h2, h3, h4, h5⟩ :=
    bootstrap_idempotent ⟨"/tmp", "/srv/app", fun _ => true⟩ sampleOpen []
      [⟨"cat.jpg", some [1, 2]⟩, ⟨"dog.jpg", some [3]⟩, ⟨"old", none⟩]
      ⟨[("/tmp/album-server/uploads/cat.jpg", [9])]⟩ (fun _ => rfl) (by decide)
      ⟨sqliteHeader, by decide⟩ sampleOpen_stable
  refine ⟨fs1, h1, ?_, ?_, ?_, h5⟩
  · exact h2 "/tmp/album-server/uploads/cat.jpg" [9] (by decide) (by decide)
  · exact h4 ⟨"dog.jpg", some [3]⟩ (by decide) [3] rfl (by decide)
  · exact h3.trans (by decide)

/-! ## The upload destination -/

theorem slash_not_mem_decimal (n : Nat) : '/' ∉ (decimal n).data := by
  intro h
  unfold decimal at h
  rcases toDigitsCore_digits (n + 1) n [] '/' h with h1 | ⟨d, hd, hc⟩
  · simp at h1
  · exact (digitChar_ne d hd).2.2 hc.symm

theorem slash_not_mem_formatInt (i : Int) : '/' ∉ (formatInt i).data := by
  unfold formatInt
  split
  · intro h
    rw [String.data_append] at h
    rcases List.mem_append.mp h with h1 | h1
    · simp at h1
    · exact slash_not_mem_decimal _ h1
  · exact slash_not_mem_decimal _

theorem slash_not_mem_lastElement (p : List Char) : '/' ∉ lastElement p := by
  intro h
  unfold lastElement at h
  have := List.mem_takeWhile_imp (List.mem_reverse.mp h)
  simp at this

theorem takeWhile_dropWhile_nil (r : List Char) :
    (r.dropWhile (fun c => c = '/')).takeWhile (fun c => c ≠ '/') = [] ↔
      ∀ c ∈ r, c = '/' := by
  induction r with
  | nil => simp
  | cons x xs ih =>
    by_cases hx : x = '/'
    · rw [List.dropWhile_cons_of_pos (by simpa using hx), ih]
      simp [hx]
    · rw [List.dropWhile_cons_of_neg (by simpa using hx),
        List.takeWhile_cons_of_pos (by simpa using hx)]
      simp [hx]

theorem lastElement_strip_nil (l : List Char) :
    lastElement (stripTrailingSeparators l) = [] ↔ ∀ c ∈ l, c = '/' := by
  unfold lastElement stripTrailingSeparators
  rw [List.reverse_reverse, List.reverse_eq_nil_iff, takeWhile_dropWhile_nil]
  simp

/-- What `filepath.Base` returns has a separator only when the path is made of
separators alone, and then it is the one-character path `/`. -/
theorem base_separator (f : String) :
    ('/' ∈ (base f).data ↔ f.data ≠ [] ∧ ∀ c ∈ f.data, c = '/') ∧
    ((f.data ≠ [] ∧ ∀ c ∈ f.data, c = '/') → base f = "/") := by
  unfold base
  by_cases he : f.data = []
  · simp [he]
  · rw [if_neg he]
    by_cases hall : ∀ c ∈ f.data, c = '/'
    · have hnil := (lastElement_strip_nil f.data).mpr hall
      simp only [hnil, if_true]
      exact ⟨⟨fun _ => ⟨he, hall⟩, fun _ => by decide⟩, fun _ => trivial⟩
    · have hnil : ¬ lastElement (stripTrailingSeparators f.data) = [] :=
        fun h => hall ((lastElement_strip_nil f.data).mp h)
      simp only [hnil, if_false]
      refine ⟨⟨fun h => absurd h (slash_not_mem_lastElement _), fun h => absurd h.2 hall⟩,
        fun h => absurd h.2 hall⟩

/-- C6 as stated fails: for album id 1 and the client file name `/` the destination
is `uploads/1_/`, whose part after `uploads/` ends with a separator. -/
theorem uploadDestination_separator_counterexample :
    uploadDestination 1 "/" = "uploads/1_/" ∧
    (uploadDestination 1 "/").data = "uploads/".data ++ "1_/".data ∧
    '/' ∈ ("1_/" : String).data := by
  decide

/-- C6 (amended): for every album id and every client file name the destination is
`uploads/` followed by `rest = <albumId>_<Base(filename)>`; `rest` contains a path
separator exactly when the file name is non-empty and made of separators only, and
in that case `rest` is `<albumId>_/` (one trailing separator).  For every other
file name (`""`, `.`, `..`, names with directory parts, leading or trailing
separators) `rest` is a single path component. -/
theorem uploadDestination_single_component (albumID : Int) (filename : String) :
    ∃ rest : List Char,
      (uploadDestination albumID filename).data = "uploads/".data ++ rest ∧
      rest = (formatInt albumID).data ++ '_' :: (base filename).data ∧
      ('/' ∈ rest ↔ filename.data ≠ [] ∧ ∀ c ∈ filename.data, c = '/') ∧
      ((filename.data ≠ [] ∧ ∀ c ∈ filename.data, c = '/') →
        rest = (formatInt albumID).data ++ ['_', '/']) := by
  obtain ⟨hiff, hall⟩ := base_separator filename
  refine ⟨(formatInt albumID).data ++ '_' :: (base filename).data, ?_, rfl, ?_, ?_⟩
  · unfold uploadDestination
    simp [String.data_append]
  · rw [← hiff]
    constructor
    · intro h
      rcases List.mem_append.mp h with h1 | h1
      · exact absurd h1 (slash_not_mem_formatInt albumID)
      · rcases List.mem_cons.mp h1 with h2 | h2
        · exact absurd h2 (by decide)
        · exact h2
    · intro h
      exact List.mem_append.mpr (Or.inr (List.mem_cons_of_mem _ h))
  · intro h
    rw [hall h]

/-! ## Claims about `uploadPhoto` -/

/-- What `strconv.Atoi` returns is a value of `int`. -/
theorem atoi_range (id : String) : minInt64 ≤ (atoi id).1 ∧ (atoi id).1 ≤ maxInt64 := by
  unfold atoi parseInt minInt64 maxInt64
  split
  · simp
  · dsimp only
    split
    · simp
    · split <;> simp
    · split
      · simp
      · split
        · simp
        · split
          · rename_i un h1 h2 h3
            simp only [h3, true_and, not_lt] at h2
            simp only
            omega
          · rename_i un h1 h2 h3
            simp only [Bool.not_eq_true] at h3
            simp only [h3, true_and, not_le] at h1
            simp only
            omega

theorem toUint_of_nonneg (i : Int) (h0 : 0 ≤ i) (h1 : i ≤ maxInt64) :
    (toUint i : Int) = i ∧ formatInt i = decimal (toUint i) := by
  unfold maxInt64 at h1
  have h : toUint i = i.toNat := by
    unfold toUint
    congr 1
    omega
  rw [h]
  refine ⟨by omega, ?_⟩
  unfold formatInt
  rw [if_neg (by omega)]

theorem slash_append (x : String) : "/" ++ ("uploads/" ++ x) = "/uploads/" ++ x := by
  rw [← String.append_assoc]
  rfl

/-- C4 (the code at the failing input): the server starts with temporary directory
`/tmp` and working directory `/srv/app`; the upload of `beach.jpg` to album `1`
answers 201 with url `/uploads/1_beach.jpg`; the bytes are written to
`/srv/app/uploads/1_beach.jpg`, while the static route resolves the url to
`/tmp/album-server/uploads/1_beach.jpg`, where no file exists. -/
theorem uploadPhoto_file_not_served :
    serverStart ⟨"/tmp", "/srv/app", fun _ => true⟩ sampleOpen [] [] ⟨[]⟩
        ⟨[⟨1, "Vacation"⟩], [], 1, 0⟩ =
      some ⟨⟨[⟨1, "Vacation"⟩], [], 1, 0⟩,
        ⟨[("/tmp/album-server/database.db", sqliteHeader)]⟩,
        "/tmp/album-server/uploads"⟩ ∧
    uploadPhoto ⟨"/tmp", "/srv/app", fun _ => true⟩ "1" (some ⟨"beach.jpg", [1, 2, 3]⟩)
        ⟨⟨[⟨1, "Vacation"⟩], [], 1, 0⟩,
          ⟨[("/tmp/album-server/database.db", sqliteHeader)]⟩,
          "/tmp/album-server/uploads"⟩ =
      (⟨201, Payload.photo ⟨1, 1, "beach.jpg", "/uploads/1_beach.jpg"⟩⟩,
        ⟨⟨[⟨1, "Vacation"⟩], [⟨1, 1, "beach.jpg", "/uploads/1_beach.jpg"⟩], 1, 1⟩,
          ⟨[("/srv/app/uploads/1_beach.jpg", [1, 2, 3]),
            ("/tmp/album-server/database.db", sqliteHeader)]⟩,
          "/tmp/album-server/uploads"⟩) ∧
    staticPath
        ⟨⟨[⟨1, "Vacation"⟩], [⟨1, 1, "beach.jpg", "/uploads/1_beach.jpg"⟩], 1, 1⟩,
          ⟨[("/srv/app/uploads/1_beach.jpg", [1, 2, 3]),
            ("/tmp/album-server/database.db", sqliteHeader)]⟩,
          "/tmp/album-server/uploads"⟩ "/uploads/1_beach.jpg" =
      some "/tmp/album-server/uploads/1_beach.jpg" ∧
    staticFile
        ⟨⟨[⟨1, "Vacation"⟩], [⟨1, 1, "beach.jpg", "/uploads/1_beach.jpg"⟩], 1, 1⟩,
          ⟨[("/srv/app/uploads/1_beach.jpg", [1, 2, 3]),
            ("/tmp/album-server/database.db", sqliteHeader)]⟩,
          "/tmp/album-server/uploads"⟩ "/uploads/1_beach.jpg" = none := by
  refine ⟨by decide, ?_, by decide, by decide⟩
  rfl

/-- C5 as stated fails: the path parameter `-1` parses to the integer -1; the record
gets `AlbumID = uint(-1) = 18446744073709551615` while the url is built from the
signed value (`-1_beach.jpg` in the directory `/uploads`), which is not `/uploads/`
followed by the decimal form of the record's `AlbumID`.  The parameter `99999999999999999999` does
not parse (`Atoi` reports an error) and the record gets `AlbumID =
9223372036854775807`, not 0. -/
theorem uploadPhoto_negative_id_counterexample :
    (uploadPhoto ⟨"/tmp", "/tmp/album-server", fun _ => true⟩ "-1"
        (some ⟨"beach.jpg", [1, 2, 3]⟩)
        ⟨⟨[], [], 0, 0⟩, ⟨[]⟩, "/tmp/album-server/uploads"⟩).1 =
      ⟨201, Payload.photo ⟨1, 18446744073709551615, "beach.jpg", "/uploads/-1_beach.jpg"⟩⟩ ∧
    "/uploads/-1_beach.jpg" ≠
      "/uploads/" ++ decimal 18446744073709551615 ++ "_" ++ base "beach.jpg" ∧
    (atoi "99999999999999999999").2 = true ∧
    (uploadPhoto ⟨"/tmp", "/tmp/album-server", fun _ => true⟩ "99999999999999999999"
        (some ⟨"beach.jpg", [1, 2, 3]⟩)
        ⟨⟨[], [], 0, 0⟩, ⟨[]⟩, "/tmp/album-server/uploads"⟩).1 =
      ⟨201, Payload.photo ⟨1, 9223372036854775807, "beach.jpg",
        "/uploads/9223372036854775807_beach.jpg"⟩⟩ := by
  refine ⟨by decide, by decide, by decide, by decide⟩

/-- C5 (amended): whenever `uploadPhoto` gets a file and the write succeeds, it
answers 201 with a record `r` with `Title` the file name, `AlbumID = uint64(i)` and
`URL = "/uploads/" ++ %d(i) ++ "_" ++ Base(filename)`, where `i` is the `int` that
`strconv.Atoi` returns for the path parameter.  While the photo table has a key
left (its sequence is below `2^63 - 1` and no photo has that id), `r` is the created
record: its id is the next row id, positive and held by no photo before, and the
database is the old one with exactly `r` added to the photos.  The albums are
unchanged and the bytes are written to the destination under the working
directory.  When `i` is not negative the record's `AlbumID` is `i` and the url is
built from the decimal form of `AlbumID`; for the decimal form of an id `n` up to
`2^63 - 1`, `AlbumID = n`. -/
theorem uploadPhoto_record (env : Env) (id : String) (file : FileHeader) (w : World)
    (hw : env.canWrite (absolute env (uploadDestination (atoi id).1 file.Filename)) = true) :
    ∃ r : Photo,
      (uploadPhoto env id (some file) w).1 = ⟨201, Payload.photo r⟩ ∧
      r.Title = file.Filename ∧
      r.AlbumID = toUint (atoi id).1 ∧
      r.URL = "/uploads/" ++ formatInt (atoi id).1 ++ "_" ++ base file.Filename ∧
      (w.db.photoSeq < maxRowid → (∀ q ∈ w.db.photos, q.ID ≠ maxRowid) →
        r.ID = max w.db.photoSeq (largestRowid (w.db.photos.map Photo.ID)) + 1 ∧
        0 < r.ID ∧ r.ID ≤ maxRowid ∧ (∀ q ∈ w.db.photos, q.ID ≠ r.ID) ∧
        (uploadPhoto env id (some file) w).2.db =
          { w.db with photos := w.db.photos ++ [r], photoSeq := r.ID }) ∧
      (uploadPhoto env id (some file) w).2.db.albums = w.db.albums ∧
      (uploadPhoto env id (some file) w).2.fs =
        w.fs.write (absolute env (uploadDestination (atoi id).1 file.Filename))
          file.content ∧
      (uploadPhoto env id (some file) w).2.uploadsPath = w.uploadsPath ∧
      (0 ≤ (atoi id).1 →
        (r.AlbumID : Int) = (atoi id).1 ∧
        r.URL = "/uploads/" ++ decimal r.AlbumID ++ "_" ++ base file.Filename) ∧
      (∀ n : Nat, n ≤ maxRowid → id = decimal n → r.AlbumID = n) := by
  have hurl : "/" ++ uploadDestination (atoi id).1 file.Filename =
      "/uploads/" ++ formatInt (atoi id).1 ++ "_" ++ base file.Filename := by
    unfold uploadDestination
    rw [String.append_assoc, String.append_assoc, slash_append, ← String.append_assoc,
      ← String.append_assoc]
  have hnn : 0 ≤ (atoi id).1 →
      ((toUint (atoi id).1 : Nat) : Int) = (atoi id).1 ∧
      "/" ++ uploadDestination (atoi id).1 file.Filename =
        "/uploads/" ++ decimal (toUint (atoi id).1) ++ "_" ++ base file.Filename := by
    intro h0
    obtain ⟨h1, h2⟩ := toUint_of_nonneg _ h0 (atoi_range id).2
    exact ⟨h1, by rw [hurl, h2]⟩
  have hdec : ∀ n : Nat, n ≤ maxRowid → id = decimal n → toUint (atoi id).1 = n := by
    intro n hn hid
    have := paramKey_decimal n hn
    unfold paramKey at this
    rw [hid]; exact this
  have hkey : w.db.photoSeq < maxRowid → (∀ q ∈ w.db.photos, q.ID ≠ maxRowid) →
      nextRowid w.db.photoSeq (w.db.photos.map Photo.ID) =
        some (max w.db.photoSeq (largestRowid (w.db.photos.map Photo.ID)) + 1) := by
    intro hseq hfull
    apply nextRowid_some _ _ hseq
    intro i hi
    obtain ⟨q, hq, rfl⟩ := List.mem_map.mp hi
    exact hfull q hq
  unfold uploadPhoto
  simp only [hw, if_true]
  unfold createPhotoRow
  simp only [if_true]
  cases hnext : nextRowid w.db.photoSeq (w.db.photos.map Photo.ID) with
  | none =>
    refine ⟨_, rfl, rfl, rfl, hurl, ?_, rfl, trivial, trivial, hnn, hdec⟩
    intro hseq hfull
    rw [hkey hseq hfull] at hnext
    cases hnext
  | some k =>
    refine ⟨_, rfl, rfl, rfl, hurl, ?_, rfl, trivial, trivial, hnn, hdec⟩
    intro hseq hfull
    obtain ⟨hpos, hle, hnot⟩ := nextRowid_fresh _ _ _ hnext
    rw [hkey hseq hfull] at hnext
    injection hnext with hk
    refine ⟨hk.symm, hpos, hle, ?_, rfl⟩
    intro q hq heq
    exact hnot (List.mem_map.mpr ⟨q, hq, heq⟩)

theorem uploadPhoto_record_witness :
    (⟨"/tmp", "/tmp/album-server", fun _ => true⟩ : Env).canWrite
        (absolute ⟨"/tmp", "/tmp/album-server", fun _ => true⟩
          (uploadDestination (atoi "1").1 "beach.jpg")) = true ∧
    uploadPhoto ⟨"/tmp", "/tmp/album-server", fun _ => true⟩ "1"
        (some ⟨"beach.jpg", [1, 2, 3]⟩)
        ⟨⟨[⟨1, "Vacation"⟩], [], 1, 0⟩, ⟨[]⟩, "/tmp/album-server/uploads"⟩ =
      (⟨201, Payload.photo ⟨1, 1, "beach.jpg", "/uploads/1_beach.jpg"⟩⟩,
        ⟨⟨[⟨1, "Vacation"⟩], [⟨1, 1, "beach.jpg", "/uploads/1_beach.jpg"⟩], 1, 1⟩,
          ⟨[("/tmp/album-server/uploads/1_beach.jpg", [1, 2, 3])]⟩,
          "/tmp/album-server/uploads"⟩) ∧
    ∃ r : Photo,
      (uploadPhoto ⟨"/tmp", "/tmp/album-server", fun _ => true⟩ "1"
          (some ⟨"beach.jpg", [1, 2, 3]⟩)
          ⟨⟨[⟨1, "Vacation"⟩], [], 1, 0⟩, ⟨[]⟩, "/tmp/album-server/uploads"⟩).1 =
        ⟨201, Payload.photo r⟩ ∧
      r.Title = "beach.jpg" ∧ r.AlbumID = toUint (atoi "1").1 ∧
      r.URL = "/uploads/" ++ formatInt (atoi "1").1 ++ "_" ++ base "beach.jpg" ∧
      r.ID = 1 := by
  refine ⟨rfl, by decide, ?_⟩
  obtain ⟨r, h1, h2, h3, h4, h5, _⟩ :=
    uploadPhoto_record ⟨"/tmp", "/tmp/album-server", fun _ => true⟩ "1"
      ⟨"beach.jpg", [1, 2, 3]⟩
      ⟨⟨[⟨1, "Vacation"⟩], [], 1, 0⟩, ⟨[]⟩, "/tmp/album-server/uploads"⟩ rfl
  exact ⟨r, h1, h2, h3, h4, (h5 (by decide) (by decide)).1.trans (by decide)⟩

end AlbumServer
